import Mathlib

/-!
Shallow embedding of the HTTP/1.1 server in `src/main.rs`.

The server is modelled value-level: the TCP byte stream becomes a
`List Nat` of bytes (each `< 256`); the `BufReader::lines()` iterator
becomes an explicit line splitter; Rust panics (out-of-bounds slice
indexing, `unwrap()` on `Err`/`None`) become explicit `panicked`
constructors of outcome types, so that partiality of the original code
is visible in the model.  The third-party gzip compressor (`flate2`)
is not code of this repository, so functions that would call it take
the compressor as an explicit function parameter `gz`.
-/

/-- `enum StatusCode` from the source. -/
inductive StatusCode where
  | Ok
  | Created
  | NotFound
  | ServerError
deriving DecidableEq, Repr

/-- `enum HttpVersion` from the source. -/
inductive HttpVersion where
  | Http1_1
deriving DecidableEq, Repr

/-- `enum ContentType` from the source. -/
inductive ContentType where
  | TextPlain
  | ApplicationOctetStream
deriving DecidableEq, Repr

/-- `enum ContentEncoding` from the source. -/
inductive ContentEncoding where
  | Gzip
deriving DecidableEq, Repr

/-- `enum HttpMethod` from the source. -/
inductive HttpMethod where
  | Get
  | Post
deriving DecidableEq, Repr

/-- `enum HttpException` from the source: each variant carries the raw
offending token (or the whole status line). -/
inductive HttpException where
  | InvalidMethod (raw : String)
  | InvalidVersion (raw : String)
  | InvalidStatusLine (raw : String)
deriving DecidableEq, Repr

/-- `impl fmt::Display for StatusCode`. -/
def StatusCode.toStr : StatusCode → String
  | .Ok => "200 OK"
  | .Created => "201 Created"
  | .NotFound => "404 Not Found"
  | .ServerError => "500 Server Error"

/-- `impl fmt::Display for HttpVersion`. -/
def HttpVersion.toStr : HttpVersion → String
  | .Http1_1 => "HTTP/1.1"

/-- `impl fmt::Display for HttpMethod`. -/
def HttpMethod.toStr : HttpMethod → String
  | .Get => "GET"
  | .Post => "POST"

/-- `impl fmt::Display for ContentType`. -/
def ContentType.toStr : ContentType → String
  | .TextPlain => "text/plain"
  | .ApplicationOctetStream => "application/octet-stream"

/-- `impl fmt::Display for ContentEncoding`. -/
def ContentEncoding.toStr : ContentEncoding → String
  | .Gzip => "gzip"

/-- The header map.  The Rust code uses a `HashMap<String, String>`; we
model it as an association list with HashMap update semantics
(`hInsert` overwrites in place, `hLookup` finds the unique binding). -/
abbrev Headers := List (String × String)

/-- `HashMap::get`. -/
def hLookup : Headers → String → Option String
  | [], _ => none
  | (k', v') :: t, k => if k' = k then some v' else hLookup t k

/-- `HashMap` insertion / `entry(..).and_modify(..).or_insert(..)`:
overwrite the value if the key is present, else add the binding. -/
def hInsert : Headers → String → String → Headers
  | [], k, v => [(k, v)]
  | (k', v') :: t, k, v => if k' = k then (k, v) :: t else (k', v') :: hInsert t k v

/-- `Entry::remove` for an occupied entry (and a no-op otherwise). -/
def hErase (hs : Headers) (k : String) : Headers :=
  hs.filter (fun p => p.1 ≠ k)

/-- ASCII approximation of Rust `char::is_whitespace` (the claims only
exercise ASCII input). -/
def isWsB (c : Char) : Bool :=
  c = ' ' || c = '\t' || c = '\n' || c = '\r' || c.toNat = 11 || c.toNat = 12

/-- `str::trim`. -/
def trimCh (l : List Char) : List Char :=
  ((l.dropWhile isWsB).reverse.dropWhile isWsB).reverse

/-- `str::trim` on `String`s. -/
def trimS (s : String) : String :=
  (trimCh s.data).asString

/-- Helper for `str::split_whitespace`: accumulate the current token
(in reverse) while walking the characters. -/
def splitWsAux : List Char → List Char → List String
  | [], acc => if acc = [] then [] else [acc.reverse.asString]
  | c :: cs, acc =>
    if isWsB c then
      if acc = [] then splitWsAux cs []
      else acc.reverse.asString :: splitWsAux cs []
    else splitWsAux cs (c :: acc)

/-- `str::split_whitespace`: tokens separated by whitespace runs, no
empty tokens. -/
def splitWs (s : String) : List String :=
  splitWsAux s.data []

/-- `str::split_once(sep)`: split at the first occurrence of `sep`,
`none` when absent. -/
def splitOnceCh (sep : Char) : List Char → Option (List Char × List Char)
  | [] => none
  | c :: cs =>
    if c = sep then some ([], cs)
    else (splitOnceCh sep cs).map (fun p => (c :: p.1, p.2))

/-- `str::split(sep)`: split at every occurrence of `sep`, keeping
empty pieces (`"".split(sep)` is `[""]`, like in Rust). -/
def splitByCh (sep : Char) : List Char → List (List Char)
  | [] => [[]]
  | c :: cs =>
    if c = sep then [] :: splitByCh sep cs
    else
      match splitByCh sep cs with
      | t :: ts => (c :: t) :: ts
      | [] => [[c]]

/-- UTF-8 encoding of one scalar value, as `String::as_bytes` would
produce it. -/
def charUtf8 (c : Char) : List Nat :=
  let n := c.toNat
  if n < 128 then [n]
  else if n < 2048 then [192 + n / 64, 128 + n % 64]
  else if n < 65536 then [224 + n / 4096, 128 + (n / 64) % 64, 128 + n % 64]
  else [240 + n / 262144, 128 + (n / 4096) % 64, 128 + (n / 64) % 64, 128 + n % 64]

/-- The UTF-8 bytes of a string (`str::as_bytes` / `String::into_bytes`). -/
def strToBytes (s : String) : List Nat :=
  (s.data.map charUtf8).flatten

/-- Strict UTF-8 decoding of a byte list, as `String::from_utf8`
validates it: rejects stray continuation bytes, overlong forms,
surrogates and values above U+10FFFF. -/
def utf8Decode : List Nat → Option (List Char)
  | [] => some []
  | b1 :: rest =>
    if b1 < 128 then
      (utf8Decode rest).map (fun cs => Char.ofNat b1 :: cs)
    else if b1 < 194 then none
    else if b1 < 224 then
      match rest with
      | b2 :: rest2 =>
        if 128 ≤ b2 && b2 < 192 then
          (utf8Decode rest2).map (fun cs =>
            Char.ofNat ((b1 - 192) * 64 + (b2 - 128)) :: cs)
        else none
      | [] => none
    else if b1 < 240 then
      match rest with
      | b2 :: b3 :: rest3 =>
        if (if b1 = 224 then 160 else 128) ≤ b2 &&
           b2 < (if b1 = 237 then 160 else 192) &&
           128 ≤ b3 && b3 < 192 then
          (utf8Decode rest3).map (fun cs =>
            Char.ofNat ((b1 - 224) * 4096 + (b2 - 128) * 64 + (b3 - 128)) :: cs)
        else none
      | _ => none
    else if b1 < 245 then
      match rest with
      | b2 :: b3 :: b4 :: rest4 =>
        if (if b1 = 240 then 144 else 128) ≤ b2 &&
           b2 < (if b1 = 244 then 144 else 192) &&
           128 ≤ b3 && b3 < 192 && 128 ≤ b4 && b4 < 192 then
          (utf8Decode rest4).map (fun cs =>
            Char.ofNat ((b1 - 240) * 262144 + (b2 - 128) * 4096 +
              (b3 - 128) * 64 + (b4 - 128)) :: cs)
        else none
      | _ => none
    else none

/-- Digit run to number, for `str::parse::<usize>`. -/
def digitsToNat (l : List Char) : Option Nat :=
  if l = [] then none
  else if l.all (fun c => c.isDigit) then
    some (l.foldl (fun acc c => acc * 10 + (c.toNat - 48)) 0)
  else none

/-- `str::parse::<usize>()`: optional leading plus sign, then a
non-empty digit run; anything else fails. -/
def parseUsize (s : String) : Option Nat :=
  match s.data with
  | [] => none
  | '+' :: ds => digitsToNat ds
  | ds => digitsToNat ds

/-- `struct Request` from the source.  The Rust field `body: String`
holds the exact bytes read from the wire (`String::from_utf8` is
byte-preserving), so we model it directly as the byte list; the UTF-8
validity that `from_utf8(..).unwrap()` enforces is modelled in the
parser, which panics on invalid bodies. -/
structure Request where
  http_method : HttpMethod
  request_target : String
  http_version : HttpVersion
  headers : Headers
  body : List Nat
deriving DecidableEq, Repr

/-- `struct Response` from the source. -/
structure Response where
  http_version : HttpVersion
  status_code : StatusCode
  headers : Headers
  body : List Nat
deriving DecidableEq, Repr

/-- `struct Config` from the source. -/
structure Config where
  directory : Option String
deriving DecidableEq, Repr

/-- `Response::new_404`. -/
def Response.new_404 : Response :=
  ⟨.Http1_1, .NotFound, [], []⟩

/-- `Response::add_header`. -/
def Response.add_header (r : Response) (k v : String) : Response :=
  { r with headers := hInsert r.headers k v }

/-- `Response::success`: install the body, set 200 OK, and add
`Content-Type: text/plain` plus `Content-Length` of the body. -/
def Response.success (r : Response) (body : List Nat) : Response :=
  (({ r with body := body, status_code := StatusCode.Ok
    }).add_header "Content-Type" ContentType.TextPlain.toStr
    ).add_header "Content-Length" (toString body.length)

/-- `HttpMethod::parse_method`. -/
def HttpMethod.parse_method (raw : String) : Except HttpException HttpMethod :=
  if raw = "GET" then .ok .Get
  else if raw = "POST" then .ok .Post
  else .error (.InvalidMethod raw)

/-- `HttpVersion::parse_version`. -/
def HttpVersion.parse_version (raw : String) : Except HttpException HttpVersion :=
  if raw = "HTTP/1.1" then .ok .Http1_1
  else .error (.InvalidVersion raw)

/-- `ContentEncoding::parse_content_encoding`: trim, split on commas,
keep the tokens that trim to `gzip`; `none` when no token survives. -/
def ContentEncoding.parse_content_encoding (raw : String) :
    Option (List ContentEncoding) :=
  match (splitByCh ',' (trimCh raw.data)).filterMap
      (fun t => if (trimCh t).asString = "gzip" then some ContentEncoding.Gzip else none) with
  | [] => none
  | l => some l

/-- `Request::validate_headers`: normalize `Accept-Encoding` — remove
the header when no encoding is recognized, otherwise rewrite it to the
comma-joined recognized tokens. -/
def Request.validate_headers (r : Request) : Request :=
  match hLookup r.headers "Accept-Encoding" with
  | none => r
  | some v =>
    match ContentEncoding.parse_content_encoding v with
    | some l =>
      { r with headers := hInsert r.headers "Accept-Encoding" (String.intercalate ", " (l.map ContentEncoding.toStr)) }
    | none =>
      { r with headers := hErase r.headers "Accept-Encoding" }

/-- One header line: `split_once(":")` then trim key and value; lines
without a colon are dropped (`filter_map`). -/
def headerEntry (line : String) : Option (String × String) :=
  (splitOnceCh ':' line.data).map
    (fun p => ((trimCh p.1).asString, (trimCh p.2).asString))

/-- `collect::<HashMap<_,_>>()` over the header lines: sequential
insertion, a repeated name keeps the last value. -/
def buildHeaders (ls : List String) : Headers :=
  ls.foldl
    (fun acc line =>
      match headerEntry line with
      | some p => hInsert acc p.1 p.2
      | none => acc)
    []

/-- The `Content-Length` the parser uses:
`headers.get("Content-Length").and_then(parse.ok).unwrap_or(0)`. -/
def contentLengthOf (headers : Headers) : Nat :=
  ((hLookup headers "Content-Length").bind parseUsize).getD 0

/-- The body buffer after `read_exact` into `vec![0; n]` with the
`Result` discarded: the available bytes, zero-filled up to `n` when
the stream is short. -/
def readBody (n : Nat) (stream : List Nat) : List Nat :=
  stream.take n ++ List.replicate (n - stream.length) 0

/-- Outcome of `parse_request`: a parsed request, an `HttpException`,
or a Rust panic (which the original function does not catch). -/
inductive ParseOutcome where
  | ok (r : Request)
  | err (e : HttpException)
  | panicked (msg : String)
deriving DecidableEq, Repr

/-- Tail of `parse_request` once the three status-line tokens are in
hand: `parse_method` and `parse_version` propagate `HttpException`s in
argument order, and `String::from_utf8(body).unwrap()` panics on a
non-UTF-8 body. -/
def finishRequest (raw_method request_target raw_version : String)
    (headers : Headers) (body : List Nat) : ParseOutcome :=
  match HttpMethod.parse_method raw_method with
  | .error e => .err e
  | .ok m =>
    match HttpVersion.parse_version raw_version with
    | .error e => .err e
    | .ok v =>
      match utf8Decode body with
      | none => .panicked "invalid utf-8 sequence"
      | some _ =>
        .ok (Request.validate_headers ⟨m, request_target, v, headers, body⟩)

/-- `parse_request`, at the level of the line iterator: `lines` is
what `BufReader::lines()` would yield, `stream` the bytes left for
`read_exact`.  Mirrors the source faithfully, including its panics:
`raw_request[0]` on an empty collected block, and the slice
`split_whitespace().collect::<Vec<_>>()[..3]` which panics when the
status line has fewer than three tokens — so the `InvalidStatusLine`
branch of the source's let-else is unreachable, and a status line with
more than three tokens is accepted using only the first three. -/
def parse_request (lines : List String) (stream : List Nat) : ParseOutcome :=
  match lines.takeWhile (fun l => l ≠ "") with
  | [] => .panicked "index out of bounds"
  | status_line :: raw_headers =>
    match splitWs status_line with
    | raw_method :: request_target :: raw_version :: _ =>
      finishRequest raw_method request_target raw_version
        (buildHeaders raw_headers)
        (readBody (contentLengthOf (buildHeaders raw_headers)) stream)
    | _ => .panicked "range end index 3 out of range"

/-- `lines()` strips one trailing `\r` (byte 13) from each line read
up to (and not including) its `\n`. -/
def stripCR (l : List Nat) : List Nat :=
  if l.getLast? = some 13 then l.dropLast else l

/-- Worker for the lazy `lines().take_while(|l| !l.is_empty())` pass:
walk the bytes with the current (reversed) line in `acc`; at each
`\n` (byte 10) emit the CR-stripped line, stopping at the first empty
one and leaving the remaining bytes untouched for `read_exact`; at end
of stream a pending partial line is still yielded, as `BufRead::lines`
does. -/
def headerBlockAux : List Nat → List Nat → List (List Nat) × List Nat
  | [], acc =>
    if stripCR acc.reverse = [] then ([], []) else ([stripCR acc.reverse], [])
  | b :: bs, acc =>
    if b = 10 then
      if stripCR acc.reverse = [] then ([], bs)
      else
        (stripCR acc.reverse :: (headerBlockAux bs []).1, (headerBlockAux bs []).2)
    else headerBlockAux bs (b :: acc)

/-- The header block of a raw byte stream: the CR-stripped lines before
the first blank line, and the bytes after that blank line. -/
def takeHeaderBlockB (input : List Nat) : List (List Nat) × List Nat :=
  headerBlockAux input []

/-- Decode every collected header-block line, as
`lines().map(|result| result.unwrap())` does: `none` models the
`unwrap` panic on a line that is not valid UTF-8. -/
def decodeLines (ls : List (List Nat)) : Option (List String) :=
  ls.mapM (fun l => (utf8Decode l).map List.asString)

/-- `parse_request` on the raw byte stream: split off the header block
(lines until the first blank line), decode the lines, and run the
line-level parser on the remaining bytes. -/
def parse_request_bytes (input : List Nat) : ParseOutcome :=
  match decodeLines (takeHeaderBlockB input).1 with
  | none => .panicked "stream did not contain valid UTF-8"
  | some ls => parse_request ls (takeHeaderBlockB input).2

/-- `request.target.split("/").filter(|s| s.len() > 0)`. -/
def pathSegments (target : String) : List String :=
  ((splitByCh '/' target.data).map List.asString).filter (fun s => s.length > 0)

/-- The routing `match` of `handle_request`, before
`integrate_request` runs.  The source tests
`request_path_vec.len()` and the leading segment with an if/else
chain; matching on the segment list is the same dispatch.  The
filesystem collaborator is abstracted: `fsR` is
`read_to_string(path)` (`none` for any failure) and `fsW` tells
whether opening the file for writing succeeds. -/
def route_request (fsR : String → Option String) (fsW : String → Bool)
    (req : Request) (cfg : Config) : Response :=
  match req.http_method, pathSegments req.request_target with
  | .Get, [] => Response.new_404.success []
  | .Get, [s0] =>
    if s0 = "user-agent" then
      Response.new_404.success (strToBytes ((hLookup req.headers "User-Agent").getD ""))
    else Response.new_404
  | .Get, [s0, s1] =>
    if s0 = "echo" then Response.new_404.success (strToBytes s1)
    else if s0 = "files" then
      match fsR ((cfg.directory.getD "") ++ s1) with
      | some contents =>
        ((Response.mk Response.new_404.http_version StatusCode.Ok Response.new_404.headers (strToBytes contents)
          ).add_header "Content-Type" ContentType.ApplicationOctetStream.toStr
          ).add_header "Content-Length" (toString (strToBytes contents).length)
      | none => Response.new_404
    else Response.new_404
  | .Get, _ => Response.new_404
  | .Post, [s0, s1] =>
    if s0 = "files" then
      if fsW ((cfg.directory.getD "") ++ s1) then
        Response.mk HttpVersion.Http1_1 StatusCode.Created Response.new_404.headers []
      else Response.mk HttpVersion.Http1_1 StatusCode.ServerError Response.new_404.headers []
    else Response.new_404
  | .Post, _ => Response.new_404

/-- `Response::compress_body`: when the parsed list contains `Gzip`,
replace the body with its gzip-compressed form (the compressor `gz`
stands for the external `flate2` encoder) and overwrite
`Content-Length` with the compressed length. -/
def Response.compress_body (gz : List Nat → List Nat) (r : Response)
    (encs : List ContentEncoding) : Response :=
  if encs.contains ContentEncoding.Gzip then
    ({ r with body := gz r.body }).add_header "Content-Length" (toString (gz r.body).length)
  else r

/-- `Response::integrate_request`: when the request still has an
`Accept-Encoding` header, re-parse it (`unwrap` panics — modelled as
`none` — if nothing is recognized, which normalization rules out),
compress, and copy the request's header value into
`Content-Encoding`. -/
def Response.integrate_request (gz : List Nat → List Nat) (req : Request)
    (r : Response) : Option Response :=
  match hLookup req.headers "Accept-Encoding" with
  | none => some r
  | some v =>
    match ContentEncoding.parse_content_encoding v with
    | none => none
    | some encs => some ((r.compress_body gz encs).add_header "Content-Encoding" v)

/-- `handle_request`: route, then run the Content Negotiator on the
produced response. -/
def handle_request (fsR : String → Option String) (fsW : String → Bool)
    (gz : List Nat → List Nat) (req : Request) (cfg : Config) : Option Response :=
  Response.integrate_request gz req (route_request fsR fsW req cfg)

/-- `stringify_headers` / the header fold of the `Display` impls:
`"<name>: <value>\r\n"` per entry. -/
def foldHeaders (hs : Headers) : String :=
  hs.foldl (fun acc p => acc ++ p.1 ++ ": " ++ p.2 ++ "\x0d\x0a") ""

/-- `Response::write_to_stream`: `"<version> <status>\r\n"`, the
headers, a blank line, then the raw body bytes. -/
def encodeResponse (r : Response) : List Nat :=
  strToBytes (r.http_version.toStr ++ " " ++ r.status_code.toStr ++ "\x0d\x0a" ++ foldHeaders r.headers ++ "\x0d\x0a") ++ r.body

/-- `impl fmt::Display for Request`, as wire bytes.  The source's
format string is `"{} {} {}{}{}{}"` applied to
`(http_method, http_version, crlf, headers, crlf, body)` — the
`request_target` field is never printed — so the text is
`"<method> <version> \r\n<headers>\r\n"` followed by the body bytes
(the body `String`'s UTF-8 bytes are exactly `r.body`). -/
def encodeRequest (r : Request) : List Nat :=
  strToBytes (r.http_method.toStr ++ " " ++ r.http_version.toStr ++ " " ++ "\x0d\x0a" ++ foldHeaders r.headers ++ "\x0d\x0a") ++ r.body

/-- What `handle_connection` leaves on the socket: the bytes it wrote,
or a propagated panic. -/
inductive ConnOut where
  | wrote (bytes : List Nat)
  | panicked (msg : String)
deriving DecidableEq, Repr

/-- `handle_connection`: parse; on success route/negotiate/encode; on
an `HttpException` the `if let Ok(..)` silently drops the error and
the function returns with nothing written. -/
def handle_connection (fsR : String → Option String) (fsW : String → Bool)
    (gz : List Nat → List Nat) (cfg : Config)
    (lines : List String) (stream : List Nat) : ConnOut :=
  match parse_request lines stream with
  | .ok r =>
    match handle_request fsR fsW gz r cfg with
    | some resp => .wrote (encodeResponse resp)
    | none => .panicked "called unwrap on a None value"
  | .err _ => .wrote []
  | .panicked m => .panicked m

/-- `struct ThreadPool`: the bounded admission controller.  A handle
is modelled by its `JoinHandle::is_finished()` observation at the
moment `execute` garbage-collects (`true` = finished). -/
structure ThreadPool where
  max_connections : Nat
  current_connections : List Bool
deriving DecidableEq, Repr

/-- `ThreadPool::new`. -/
def ThreadPool.new (max_connections : Nat) : ThreadPool :=
  ⟨max_connections, []⟩

/-- `ThreadPool::execute`: retain unfinished handles, then spawn (and
push the fresh, unfinished handle) only when the survivor count is
strictly below capacity; otherwise the connection is dropped.  The
returned flag says whether the connection was admitted. -/
def ThreadPool.execute (p : ThreadPool) : ThreadPool × Bool :=
  if (p.current_connections.filter (fun f => !f)).length < p.max_connections then
    (⟨p.max_connections, p.current_connections.filter (fun f => !f) ++ [false]⟩, true)
  else
    (⟨p.max_connections, p.current_connections.filter (fun f => !f)⟩, false)

theorem hLookup_hInsert_self (hs : Headers) (k v : String) :
    hLookup (hInsert hs k v) k = some v := by
  induction hs with
  | nil => simp [hInsert, hLookup]
  | cons p t ih =>
    obtain ⟨a, b⟩ := p
    by_cases h : a = k
    · simp [hInsert, h, hLookup]
    · simp [hInsert, h, hLookup, ih]

theorem hLookup_hInsert_ne (hs : Headers) (k k' v : String) (h : k ≠ k') :
    hLookup (hInsert hs k' v) k = hLookup hs k := by
  induction hs with
  | nil => simp [hInsert, hLookup, Ne.symm h]
  | cons p t ih =>
    obtain ⟨a, b⟩ := p
    by_cases ha : a = k'
    · simp [hInsert, ha, hLookup, Ne.symm h]
    · simp [hInsert, ha, hLookup, ih]

theorem validate_headers_body (r : Request) :
    (Request.validate_headers r).body = r.body := by
  unfold Request.validate_headers
  cases h1 : hLookup r.headers "Accept-Encoding" with
  | none => rfl
  | some v =>
    cases h2 : ContentEncoding.parse_content_encoding v with
    | none => simp [h2]
    | some l => simp [h2]

/-- C1: the claim says a status line with a token count other than 3
yields `InvalidStatusLine` with the full line, and exactly 3 tokens
never does.  The code instead slices `[..3]` out of the collected
token vector: with 2 tokens (`"GET /x"`) this panics with a slice
range error before the let-else can return `InvalidStatusLine`, and
with 4 tokens the slice keeps the first three and the request parses
successfully — `InvalidStatusLine` is never produced on either side. -/
theorem c1_status_line_slice_panics :
    parse_request ["GET /x"] [] = ParseOutcome.panicked "range end index 3 out of range"
    ∧ parse_request ["GET / HTTP/1.1 extra"] []
      = ParseOutcome.ok ⟨HttpMethod.Get, "/", HttpVersion.Http1_1, [], []⟩ := by
  exact ⟨rfl, rfl⟩

/-- C2 counterexample: a declared `Content-Length: 1` followed by the
single byte `0xFF` (not valid UTF-8) makes `parse_request` panic in
`String::from_utf8(body).unwrap()` instead of succeeding — the body
is not binary-safe for all byte values. -/
theorem c2_non_utf8_body_panics :
    parse_request ["GET / HTTP/1.1", "Content-Length: 1"] [255]
      = ParseOutcome.panicked "invalid utf-8 sequence" := by
  exact rfl

/-- C2 (amended): when the header block declares `Content-Length: n`
and the stream then holds exactly `n` bytes that form valid UTF-8,
`parse_request` succeeds and the request body is exactly those `n`
bytes. -/
theorem c2_content_length_body (ls hls : List String) (sl : String) (bs : List Nat)
    (n : Nat) (mtok ttok vtok : String) (moreToks : List String)
    (m : HttpMethod) (v : HttpVersion) (cs : List Char)
    (h1 : ls.takeWhile (fun l => l ≠ "") = sl :: hls)
    (h2 : splitWs sl = mtok :: ttok :: vtok :: moreToks)
    (h3 : HttpMethod.parse_method mtok = Except.ok m)
    (h4 : HttpVersion.parse_version vtok = Except.ok v)
    (h5 : (hLookup (buildHeaders hls) "Content-Length").bind parseUsize = some n)
    (h6 : bs.length = n)
    (h7 : utf8Decode bs = some cs) :
    ∃ r, parse_request ls bs = ParseOutcome.ok r ∧ r.body = bs := by
  subst h6
  have hcl : contentLengthOf (buildHeaders hls) = bs.length := by
    rw [contentLengthOf, h5]
    rfl
  have hb : readBody (contentLengthOf (buildHeaders hls)) bs = bs := by
    rw [hcl]
    simp [readBody]
  refine ⟨Request.validate_headers ⟨m, ttok, v, buildHeaders hls, bs⟩, ?_, ?_⟩
  · simp only [parse_request, h1, h2, hb, finishRequest, h3, h4, h7]
  · rw [validate_headers_body]

/-- Witness for C2 (amended) at a concrete stream. -/
theorem c2_content_length_body_witness :
    (hLookup (buildHeaders ["Content-Length: 3"]) "Content-Length").bind parseUsize = some 3
    ∧ ∃ r, parse_request ["GET / HTTP/1.1", "Content-Length: 3"] [97, 98, 99]
        = ParseOutcome.ok r ∧ r.body = [97, 98, 99] :=
  ⟨rfl,
   c2_content_length_body ["GET / HTTP/1.1", "Content-Length: 3"] ["Content-Length: 3"]
     "GET / HTTP/1.1" [97, 98, 99] 3 "GET" "/" "HTTP/1.1" []
     HttpMethod.Get HttpVersion.Http1_1 ['a', 'b', 'c']
     rfl rfl rfl rfl rfl rfl rfl⟩

/-- C3 counterexample: a request whose method fails to parse produces
`InvalidMethod`, yet `handle_connection` writes nothing at all before
the socket closes — there is no diagnostic payload on the wire (the
`if let Ok(..)` silently swallows the error). -/
theorem c3_parse_error_writes_nothing_cex :
    parse_request ["DELETE / HTTP/1.1"] []
      = ParseOutcome.err (HttpException.InvalidMethod "DELETE")
    ∧ handle_connection (fun _ => none) (fun _ => false) (fun b => b) ⟨none⟩
        ["DELETE / HTTP/1.1"] [] = ConnOut.wrote [] := by
  exact ⟨rfl, rfl⟩

/-- C3 (amended): whenever `parse_request` fails with an
`HttpException`, the connection handler writes nothing onto the wire
before the socket closes. -/
theorem c3_parse_error_silent_close (fsR : String → Option String)
    (fsW : String → Bool) (gz : List Nat → List Nat) (cfg : Config)
    (ls : List String) (bs : List Nat) (e : HttpException)
    (h : parse_request ls bs = ParseOutcome.err e) :
    handle_connection fsR fsW gz cfg ls bs = ConnOut.wrote [] := by
  simp [handle_connection, h]

/-- Witness for C3 (amended) at a concrete erroring stream. -/
theorem c3_parse_error_silent_close_witness :
    parse_request ["GET / HTTP/2"] [] = ParseOutcome.err (HttpException.InvalidVersion "HTTP/2")
    ∧ handle_connection (fun _ => none) (fun _ => false) (fun b => b) ⟨none⟩
        ["GET / HTTP/2"] [] = ConnOut.wrote [] :=
  ⟨rfl,
   c3_parse_error_silent_close (fun _ => none) (fun _ => false) (fun b => b) ⟨none⟩
     ["GET / HTTP/2"] [] (HttpException.InvalidVersion "HTTP/2") rfl⟩

/-- C10: a blank line before any status line leaves the collected
header block empty, and `parse_request` panics on `raw_request[0]`
instead of returning any `HttpException` — shown both at the line
level (first line empty) and at the byte level (stream starting with
`\r\n`). -/
theorem c10_blank_first_line_panics :
    (∀ (rest : List String) (bs : List Nat),
      parse_request ("" :: rest) bs = ParseOutcome.panicked "index out of bounds")
    ∧ (∀ bs : List Nat,
      parse_request_bytes (13 :: 10 :: bs) = ParseOutcome.panicked "index out of bounds") := by
  refine ⟨fun rest bs => rfl, fun bs => rfl⟩

/-- C4: the round-trip `decode(encode-as-request(R)) = R` fails.  The
`Display` impl for `Request` prints `"{} {} {}{}{}{}"` with arguments
`(method, version, crlf, headers, crlf, body)` — the request target is
never written — so encoding `GET /echo/abc HTTP/1.1` produces the
two-token status line `"GET HTTP/1.1 "` and decoding that panics on
the `[..3]` slice instead of recovering the request. -/
theorem c4_request_display_roundtrip_fails :
    encodeRequest ⟨HttpMethod.Get, "/echo/abc", HttpVersion.Http1_1, [], []⟩
      = strToBytes "GET HTTP/1.1 \x0d\x0a\x0d\x0a"
    ∧ parse_request_bytes
        (encodeRequest ⟨HttpMethod.Get, "/echo/abc", HttpVersion.Http1_1, [], []⟩)
      = ParseOutcome.panicked "range end index 3 out of range" := by
  exact ⟨rfl, rfl⟩

/-- C5 counterexample: a request whose `Accept-Encoding` normalizes to
`"gzip, gzip"` (a fixpoint of `validate_headers`, so it reaches the
negotiator in this form) gets `Content-Encoding: gzip, gzip` on the
response — the header is a copy of the request value, not the exact
string `"gzip"` the claim demands. -/
theorem c5_content_encoding_copies_header_cex :
    Request.validate_headers
        ⟨HttpMethod.Get, "/", HttpVersion.Http1_1, [("Accept-Encoding", "gzip, gzip")], []⟩
      = ⟨HttpMethod.Get, "/", HttpVersion.Http1_1, [("Accept-Encoding", "gzip, gzip")], []⟩
    ∧ Response.integrate_request (fun b => b)
        ⟨HttpMethod.Get, "/", HttpVersion.Http1_1, [("Accept-Encoding", "gzip, gzip")], []⟩
        ⟨HttpVersion.Http1_1, StatusCode.Ok, [], [97]⟩
      = some ⟨HttpVersion.Http1_1, StatusCode.Ok,
          [("Content-Length", "1"), ("Content-Encoding", "gzip, gzip")], [97]⟩
    ∧ some "gzip, gzip" ≠ some "gzip" := by
  exact ⟨rfl, rfl, by decide⟩

/-- C5 (amended): when the request's `Accept-Encoding` value parses to
an encoding list containing `Gzip`, the negotiator replaces the body
with its gzip-compressed form, overwrites `Content-Length` with the
compressed byte length, and sets `Content-Encoding` to the request's
(normalized) `Accept-Encoding` value — which is exactly `"gzip"` when
the client listed `gzip` once, but in general is the copied value. -/
theorem c5_gzip_negotiation (gz : List Nat → List Nat) (req : Request)
    (resp : Response) (v : String) (encs : List ContentEncoding)
    (hv : hLookup req.headers "Accept-Encoding" = some v)
    (hp : ContentEncoding.parse_content_encoding v = some encs)
    (hg : encs.contains ContentEncoding.Gzip = true) :
    ∃ r, Response.integrate_request gz req resp = some r
      ∧ r.body = gz resp.body
      ∧ hLookup r.headers "Content-Length" = some (toString (gz resp.body).length)
      ∧ hLookup r.headers "Content-Encoding" = some v := by
  have hc : Response.compress_body gz resp encs
      = ({ resp with body := gz resp.body
        }).add_header "Content-Length" (toString (gz resp.body).length) := by
    unfold Response.compress_body
    rw [hg]
    rfl
  refine ⟨(Response.compress_body gz resp encs).add_header "Content-Encoding" v, ?_, ?_, ?_, ?_⟩
  · simp [Response.integrate_request, hv, hp]
  · rw [hc]
    rfl
  · rw [hc]
    show hLookup (hInsert (hInsert resp.headers "Content-Length" (toString (gz resp.body).length)) "Content-Encoding" v) "Content-Length" = _
    rw [hLookup_hInsert_ne _ _ _ _ (by decide), hLookup_hInsert_self]
  · exact hLookup_hInsert_self _ _ _

/-- Witness for C5 (amended): one `gzip` token, a concrete request and
response, a stand-in compressor. -/
theorem c5_gzip_negotiation_witness :
    hLookup [("Accept-Encoding", "gzip")] "Accept-Encoding" = some "gzip"
    ∧ ∃ r, Response.integrate_request (fun b => 31 :: 139 :: b)
        ⟨HttpMethod.Get, "/echo/abc", HttpVersion.Http1_1, [("Accept-Encoding", "gzip")], []⟩
        ⟨HttpVersion.Http1_1, StatusCode.Ok, [], [97, 98, 99]⟩
      = some r
      ∧ r.body = (fun b => 31 :: 139 :: b) [97, 98, 99]
      ∧ hLookup r.headers "Content-Length" = some (toString ((fun b => 31 :: 139 :: b) [97, 98, 99]).length)
      ∧ hLookup r.headers "Content-Encoding" = some "gzip" :=
  ⟨rfl,
   c5_gzip_negotiation (fun b => 31 :: 139 :: b)
     ⟨HttpMethod.Get, "/echo/abc", HttpVersion.Http1_1, [("Accept-Encoding", "gzip")], []⟩
     ⟨HttpVersion.Http1_1, StatusCode.Ok, [], [97, 98, 99]⟩
     "gzip" [ContentEncoding.Gzip] rfl rfl rfl⟩

/-- C6: `validate_headers` normalizes `Accept-Encoding` exactly as the
spec says: when no token is recognized the header is removed, when
some are recognized the value becomes the comma-joined recognized
tokens; consequently a request carrying `Accept-Encoding: bogus` is
handled identically to the same request without the header. -/
theorem c6_accept_encoding_normalization (req : Request) (v : String)
    (hv : hLookup req.headers "Accept-Encoding" = some v) :
    (ContentEncoding.parse_content_encoding v = none →
      (Request.validate_headers req).headers = hErase req.headers "Accept-Encoding")
    ∧ (∀ encs, ContentEncoding.parse_content_encoding v = some encs →
      (Request.validate_headers req).headers
        = hInsert req.headers "Accept-Encoding" (String.intercalate ", " (encs.map ContentEncoding.toStr)))
    ∧ (v = "bogus" → ∀ (fsR : String → Option String) (fsW : String → Bool)
        (gz : List Nat → List Nat) (cfg : Config),
      handle_request fsR fsW gz (Request.validate_headers req) cfg
        = handle_request fsR fsW gz { req with headers := hErase req.headers "Accept-Encoding" } cfg) := by
  refine ⟨?_, ?_, ?_⟩
  · intro hn
    simp [Request.validate_headers, hv, hn]
  · intro encs he
    simp [Request.validate_headers, hv, he]
  · intro hb fsR fsW gz cfg
    subst hb
    have hval : Request.validate_headers req
        = { req with headers := hErase req.headers "Accept-Encoding" } := by
      have hn : ContentEncoding.parse_content_encoding "bogus" = none := by rfl
      simp [Request.validate_headers, hv, hn]
    rw [hval]

/-- Witness for C6 at a concrete request carrying
`Accept-Encoding: bogus`. -/
theorem c6_accept_encoding_normalization_witness :
    (Request.validate_headers
        ⟨HttpMethod.Get, "/echo/abc", HttpVersion.Http1_1, [("Accept-Encoding", "bogus")], []⟩).headers
      = hErase [("Accept-Encoding", "bogus")] "Accept-Encoding"
    ∧ handle_request (fun _ => none) (fun _ => false) (fun b => b)
        (Request.validate_headers
          ⟨HttpMethod.Get, "/echo/abc", HttpVersion.Http1_1, [("Accept-Encoding", "bogus")], []⟩) ⟨none⟩
      = handle_request (fun _ => none) (fun _ => false) (fun b => b)
        ⟨HttpMethod.Get, "/echo/abc", HttpVersion.Http1_1,
          hErase [("Accept-Encoding", "bogus")] "Accept-Encoding", []⟩ ⟨none⟩ :=
  ⟨(c6_accept_encoding_normalization
      ⟨HttpMethod.Get, "/echo/abc", HttpVersion.Http1_1, [("Accept-Encoding", "bogus")], []⟩
      "bogus" rfl).1 rfl,
   (c6_accept_encoding_normalization
      ⟨HttpMethod.Get, "/echo/abc", HttpVersion.Http1_1, [("Accept-Encoding", "bogus")], []⟩
      "bogus" rfl).2.2 rfl (fun _ => none) (fun _ => false) (fun b => b) ⟨none⟩⟩

/-- C7 counterexample: `GET /` does not produce a header-free 200 —
`Response::success` always sets `Content-Type: text/plain` and
`Content-Length: 0`, and they survive to the final response. -/
theorem c7_root_sets_content_headers_cex :
    handle_request (fun _ => none) (fun _ => false) (fun b => b)
        ⟨HttpMethod.Get, "/", HttpVersion.Http1_1, [], []⟩ ⟨none⟩
      = some ⟨HttpVersion.Http1_1, StatusCode.Ok,
          [("Content-Type", "text/plain"), ("Content-Length", "0")], []⟩ := by
  exact rfl

/-- C7 (amended): a GET whose target splits into zero segments routes
to 200 with an empty body and with the content headers
`Content-Type: text/plain` and `Content-Length: 0` (set by
`Response::success`), not a header-free response. -/
theorem c7_root_route (fsR : String → Option String) (fsW : String → Bool)
    (req : Request) (cfg : Config)
    (hm : req.http_method = HttpMethod.Get)
    (hp : pathSegments req.request_target = []) :
    route_request fsR fsW req cfg
      = ⟨HttpVersion.Http1_1, StatusCode.Ok,
          [("Content-Type", "text/plain"), ("Content-Length", "0")], []⟩ := by
  unfold route_request
  rw [hm, hp]
  rfl

/-- Witness for C7 (amended) at the literal target `/`. -/
theorem c7_root_route_witness :
    pathSegments "/" = []
    ∧ route_request (fun _ => none) (fun _ => false)
        ⟨HttpMethod.Get, "/", HttpVersion.Http1_1, [], []⟩ ⟨none⟩
      = ⟨HttpVersion.Http1_1, StatusCode.Ok,
          [("Content-Type", "text/plain"), ("Content-Length", "0")], []⟩ :=
  ⟨rfl,
   c7_root_route (fun _ => none) (fun _ => false)
     ⟨HttpMethod.Get, "/", HttpVersion.Http1_1, [], []⟩ ⟨none⟩ rfl rfl⟩

/-- C8: a GET whose target splits into exactly `["echo", s]` routes to
200 with body exactly the UTF-8 bytes of `s`,
`Content-Type: text/plain`, and `Content-Length` equal to the byte
length of `s` — this is the handler's response, before the Content
Negotiator may compress. -/
theorem c8_echo_route (fsR : String → Option String) (fsW : String → Bool)
    (req : Request) (cfg : Config) (s : String)
    (hm : req.http_method = HttpMethod.Get)
    (hp : pathSegments req.request_target = ["echo", s]) :
    route_request fsR fsW req cfg
      = ⟨HttpVersion.Http1_1, StatusCode.Ok,
          [("Content-Type", "text/plain"), ("Content-Length", toString (strToBytes s).length)],
          strToBytes s⟩ := by
  unfold route_request
  rw [hm, hp]
  rfl

/-- Witness for C8 at the literal target `/echo/abc`. -/
theorem c8_echo_route_witness :
    pathSegments "/echo/abc" = ["echo", "abc"]
    ∧ route_request (fun _ => none) (fun _ => false)
        ⟨HttpMethod.Get, "/echo/abc", HttpVersion.Http1_1, [], []⟩ ⟨none⟩
      = ⟨HttpVersion.Http1_1, StatusCode.Ok,
          [("Content-Type", "text/plain"), ("Content-Length", "3")], [97, 98, 99]⟩ :=
  ⟨rfl,
   c8_echo_route (fun _ => none) (fun _ => false)
     ⟨HttpMethod.Get, "/echo/abc", HttpVersion.Http1_1, [], []⟩ ⟨none⟩ "abc" rfl rfl⟩

/-- C9: `ThreadPool::execute` preserves the capacity invariant — it
first drops finished handles, spawns exactly when the post-cleanup
count is strictly below `max_connections` (appending the fresh,
unfinished handle), and otherwise drops the connection leaving only
the surviving handles; in both cases the in-flight count stays at most
the capacity. -/
theorem c9_admission_bounded (p : ThreadPool)
    (h : p.current_connections.length ≤ p.max_connections) :
    ((p.execute).1.current_connections.length ≤ p.max_connections)
    ∧ ((p.execute).2 = true
        ↔ (p.current_connections.filter (fun f => !f)).length < p.max_connections)
    ∧ ((p.execute).2 = true →
        (p.execute).1.current_connections
          = p.current_connections.filter (fun f => !f) ++ [false])
    ∧ ((p.execute).2 = false →
        (p.execute).1.current_connections
          = p.current_connections.filter (fun f => !f)) := by
  have hf : (p.current_connections.filter (fun f => !f)).length
      ≤ p.current_connections.length := List.length_filter_le _ _
  by_cases hc : (p.current_connections.filter (fun f => !f)).length < p.max_connections
  · have he : p.execute
        = (⟨p.max_connections, p.current_connections.filter (fun f => !f) ++ [false]⟩, true) := by
      unfold ThreadPool.execute
      rw [if_pos hc]
    rw [he]
    refine ⟨?_, by simp [hc], fun _ => rfl, fun hfalse => by simp at hfalse⟩
    show (p.current_connections.filter (fun f => !f) ++ [false]).length ≤ p.max_connections
    simp only [List.length_append, List.length_cons, List.length_nil]
    omega
  · have he : p.execute
        = (⟨p.max_connections, p.current_connections.filter (fun f => !f)⟩, false) := by
      unfold ThreadPool.execute
      rw [if_neg hc]
    rw [he]
    refine ⟨?_, by simp [hc], fun htrue => by simp at htrue, fun _ => rfl⟩
    show (p.current_connections.filter (fun f => !f)).length ≤ p.max_connections
    omega

/-- Witness for C9: a pool of capacity 2 holding one finished and one
running handle admits the next connection and stays within capacity. -/
theorem c9_admission_bounded_witness :
    ([true, false] : List Bool).length ≤ 2
    ∧ ((ThreadPool.execute ⟨2, [true, false]⟩).1.current_connections.length ≤ 2) :=
  ⟨by decide, (c9_admission_bounded ⟨2, [true, false]⟩ (by decide)).1⟩
